import Mathlib

/-!
Verification of the LabelPilot frontend/backend repository.

Part 1: EAN-13 utilities (source: the shared utils module exporting
`normalizeDigits`, `ean13CheckDigit` and `makeEan13`).

Strings are modelled as Lean `String`s; the numeric value of a digit
character (JavaScript `Number(d12[i])` on a single digit) is its code
point minus 48.
-/

namespace LabelPilot

/-- Numeric value of a digit character, as `Number(c)` yields on `'0'`-`'9'`. -/
def digitVal (c : Char) : Nat := c.toNat - 48

/-- Model of `input.replace(/[^\d]/g, "")`: keep only the ASCII digit characters. -/
def normalizeDigits (input : String) : String :=
  String.mk (input.toList.filter Char.isDigit)

/-- The loop body of `ean13CheckDigit`: starting at index `i`, add each
digit once at even indices and three times at odd indices
(`sum += i % 2 === 0 ? n : n * 3`). -/
def ean13SumAux : List Char → Nat → Nat
  | [], _ => 0
  | c :: cs, i => (if i % 2 == 0 then digitVal c else 3 * digitVal c) + ean13SumAux cs (i + 1)

/-- Source `ean13CheckDigit(d12)`: `null` unless `d12` is exactly 12 digit
characters; otherwise the check digit `(10 - sum % 10) % 10` rendered as a
one-character string. -/
def ean13CheckDigit (d12 : String) : Option String :=
  if d12.toList.length ≠ 12 then none
  else if ¬ (d12.toList.all Char.isDigit) then none
  else
    let sum := ean13SumAux d12.toList 0
    let check := (10 - sum % 10) % 10
    some (String.mk [Nat.digitChar check])

/-- JavaScript `padEnd(12, "0")` on a digit list: append `'0'`s up to the target length. -/
def padEndZeros (cs : List Char) (n : Nat) : List Char :=
  cs ++ List.replicate (n - cs.length) '0'

/-- Source `makeEan13(baseDigits)`: strip non-digits; pass a 13-digit result
through; otherwise take the first 12 digits, pad with `'0'`s and append the
check digit. -/
def makeEan13 (baseDigits : String) : Option String :=
  let d := normalizeDigits baseDigits
  if d.toList.length = 13 ∧ d.toList.all Char.isDigit then some d
  else
    let d12 := String.mk (padEndZeros (d.toList.take 12) 12)
    match ean13CheckDigit d12 with
    | none => none
    | some cd => some (d12 ++ cd)

/-- Sum of the entries at even 0-indexed positions of a list. -/
def sumAtEven : List Nat → Nat
  | [] => 0
  | [a] => a
  | a :: _ :: rest => a + sumAtEven rest

/-- Sum of the entries at odd 0-indexed positions of a list (the entries at
even positions of the tail). -/
def sumAtOdd : List Nat → Nat
  | [] => 0
  | _ :: rest => sumAtEven rest

/-- The check-digit formula exactly as the spec words it:
`(10 − (Σ odd-position digits + 3×Σ even-position digits) mod 10) mod 10`,
positions 0-indexed from the left. -/
def specCheckDigit (ds : List Nat) : Nat :=
  (10 - ((sumAtOdd ds + 3 * sumAtEven ds) % 10)) % 10

lemma sumAtEven_nil : sumAtEven [] = 0 := rfl

lemma sumAtOdd_nil : sumAtOdd [] = 0 := rfl

lemma sumAtEven_cons (a : Nat) (rest : List Nat) :
    sumAtEven (a :: rest) = a + sumAtOdd rest := by
  cases rest with
  | nil => simp [sumAtEven, sumAtOdd]
  | cons b rest => simp [sumAtEven, sumAtOdd]

lemma sumAtOdd_cons (a : Nat) (rest : List Nat) :
    sumAtOdd (a :: rest) = sumAtEven rest := rfl

/-- The source loop computes the weight-1-on-even / weight-3-on-odd sum
(shifted by the parity of the start index). -/
lemma ean13SumAux_spec (cs : List Char) : ∀ i : Nat,
    ean13SumAux cs i =
      if i % 2 = 0 then
        sumAtEven (cs.map digitVal) + 3 * sumAtOdd (cs.map digitVal)
      else
        3 * sumAtEven (cs.map digitVal) + sumAtOdd (cs.map digitVal) := by
  induction cs with
  | nil => intro i; simp [ean13SumAux, sumAtEven_nil, sumAtOdd_nil]
  | cons c cs ih =>
    intro i
    rcases Nat.mod_two_eq_zero_or_one i with h | h
    · have h1 : (i + 1) % 2 = 1 := by omega
      simp only [ean13SumAux, ih (i + 1), List.map_cons, sumAtEven_cons, sumAtOdd_cons,
        h, h1]
      simp [h]
      ring
    · have h1 : (i + 1) % 2 = 0 := by omega
      simp only [ean13SumAux, ih (i + 1), List.map_cons, sumAtEven_cons, sumAtOdd_cons,
        h, h1]
      simp [h]
      ring

lemma digitChar_isDigit (n : Nat) (h : n < 10) : (Nat.digitChar n).isDigit = true := by
  interval_cases n <;> decide

lemma digitVal_digitChar (n : Nat) (h : n < 10) : digitVal (Nat.digitChar n) = n := by
  interval_cases n <;> decide

/-- On a 12-digit string, `ean13CheckDigit` returns the rendered digit of
`(10 - sum % 10) % 10` where `sum` weights even positions 1 and odd
positions 3. -/
lemma ean13CheckDigit_eq (d12 : String)
    (hlen : d12.toList.length = 12) (hdig : d12.toList.all Char.isDigit = true) :
    ean13CheckDigit d12 =
      some (String.mk [Nat.digitChar
        ((10 - ((sumAtEven (d12.toList.map digitVal)
                  + 3 * sumAtOdd (d12.toList.map digitVal)) % 10)) % 10)]) := by
  unfold ean13CheckDigit
  rw [if_neg (by omega), if_neg (not_not_intro hdig)]
  rw [ean13SumAux_spec d12.toList 0]
  simp

/-- C1: for every 12-character digit string `d`, `ean13CheckDigit d` returns a
single digit character `c` such that the sum of the digits at even 0-indexed
positions plus three times the sum of the digits at odd 0-indexed positions,
plus the value of `c`, is divisible by 10. -/
theorem ean13CheckDigit_satisfies_checksum (d12 : String)
    (hlen : d12.toList.length = 12) (hdig : d12.toList.all Char.isDigit = true) :
    ∃ c : Char, ean13CheckDigit d12 = some (String.mk [c]) ∧ c.isDigit = true ∧
      (sumAtEven (d12.toList.map digitVal) + 3 * sumAtOdd (d12.toList.map digitVal)
        + digitVal c) % 10 = 0 := by
  rw [ean13CheckDigit_eq d12 hlen hdig]
  set s := sumAtEven (d12.toList.map digitVal) + 3 * sumAtOdd (d12.toList.map digitVal)
  have hlt : (10 - s % 10) % 10 < 10 := by omega
  refine ⟨Nat.digitChar ((10 - s % 10) % 10), rfl, digitChar_isDigit _ hlt, ?_⟩
  rw [digitVal_digitChar _ hlt]
  omega

/-- C1 witness: the theorem applied to the concrete 12-digit string
`"123456789012"`. -/
theorem ean13CheckDigit_satisfies_checksum_witness :
    ∃ c : Char, ean13CheckDigit "123456789012" = some (String.mk [c]) ∧ c.isDigit = true ∧
      (sumAtEven (("123456789012" : String).toList.map digitVal)
        + 3 * sumAtOdd (("123456789012" : String).toList.map digitVal)
        + digitVal c) % 10 = 0 :=
  ean13CheckDigit_satisfies_checksum "123456789012" (by decide) (by decide)

/-- C2 counterexample: on the 12-digit string `"100000000000"` the code
returns check digit `9`, while the formula as the spec words it
(`(10 − (Σ odd-position + 3×Σ even-position) mod 10) mod 10`, 0-indexed)
yields `7`; the claimed equation fails. -/
theorem ean13CheckDigit_spec_formula_counterexample :
    ean13CheckDigit "100000000000" ≠
      some (String.mk [Nat.digitChar
        (specCheckDigit ((("100000000000" : String)).toList.map digitVal))]) ∧
    ean13CheckDigit "100000000000" = some "9" ∧
    specCheckDigit ((("100000000000" : String)).toList.map digitVal) = 7 := by
  refine ⟨?_, by decide, by decide⟩
  decide

/-- C2 amended: for every 12-digit string the check digit equals
`(10 − ((Σ even-position digits + 3×Σ odd-position digits) mod 10)) mod 10`,
positions 0-indexed from the left (the spec swapped the two weights). -/
theorem ean13CheckDigit_weighted_formula (d12 : String)
    (hlen : d12.toList.length = 12) (hdig : d12.toList.all Char.isDigit = true) :
    ean13CheckDigit d12 =
      some (String.mk [Nat.digitChar
        ((10 - ((sumAtEven (d12.toList.map digitVal)
                  + 3 * sumAtOdd (d12.toList.map digitVal)) % 10)) % 10)]) :=
  ean13CheckDigit_eq d12 hlen hdig

/-- C2 amended witness: the theorem applied to `"100000000000"`. -/
theorem ean13CheckDigit_weighted_formula_witness :
    ean13CheckDigit "100000000000" =
      some (String.mk [Nat.digitChar
        ((10 - ((sumAtEven (("100000000000" : String).toList.map digitVal)
                  + 3 * sumAtOdd (("100000000000" : String).toList.map digitVal)) % 10)) % 10)]) :=
  ean13CheckDigit_weighted_formula "100000000000" (by decide) (by decide)

lemma string_mk_toList (cs : List Char) : (String.mk cs).toList = cs := rfl

lemma string_append_mk (a b : List Char) :
    String.mk a ++ String.mk b = String.mk (a ++ b) := rfl

lemma normalizeDigits_all_digits (x : String) :
    (normalizeDigits x).toList.all Char.isDigit = true := by
  unfold normalizeDigits
  rw [string_mk_toList]
  exact List.all_eq_true.mpr fun c hc => List.of_mem_filter hc

lemma padEndZeros_take_length (l : List Char) :
    (padEndZeros (l.take 12) 12).length = 12 := by
  unfold padEndZeros
  simp only [List.length_append, List.length_replicate, List.length_take]
  omega

lemma padEndZeros_take_all_digits (l : List Char) (h : l.all Char.isDigit = true) :
    (padEndZeros (l.take 12) 12).all Char.isDigit = true := by
  unfold padEndZeros
  rw [List.all_append]
  refine Bool.and_eq_true_iff.mpr ⟨?_, ?_⟩
  · exact List.all_eq_true.mpr fun c hc =>
      List.all_eq_true.mp h c (List.mem_of_mem_take hc)
  · exact List.all_eq_true.mpr fun c hc => by
      rw [List.eq_of_mem_replicate hc]; decide

/-- If the digit-stripped input has exactly 13 digits, `makeEan13` passes it
through unchanged. -/
lemma makeEan13_pass_of_13 (x : String)
    (hlen : (normalizeDigits x).toList.length = 13) :
    makeEan13 x = some (normalizeDigits x) := by
  unfold makeEan13
  rw [if_pos ⟨hlen, normalizeDigits_all_digits x⟩]

/-- If the digit-stripped input does not have exactly 13 digits, `makeEan13`
appends the check digit to the zero-padded first 12 digits. -/
lemma makeEan13_else (x : String)
    (hlen : (normalizeDigits x).toList.length ≠ 13) :
    makeEan13 x =
      some (String.mk (padEndZeros ((normalizeDigits x).toList.take 12) 12) ++
        String.mk [Nat.digitChar
          ((10 - ((sumAtEven ((padEndZeros ((normalizeDigits x).toList.take 12) 12).map digitVal)
            + 3 * sumAtOdd ((padEndZeros ((normalizeDigits x).toList.take 12) 12).map digitVal))
              % 10)) % 10)]) := by
  unfold makeEan13
  rw [if_neg (by intro hc; exact hlen hc.1)]
  have h1 : (String.mk (padEndZeros ((normalizeDigits x).toList.take 12) 12)).toList.length = 12 := by
    rw [string_mk_toList]; exact padEndZeros_take_length _
  have h2 : (String.mk (padEndZeros ((normalizeDigits x).toList.take 12) 12)).toList.all
      Char.isDigit = true := by
    rw [string_mk_toList]
    exact padEndZeros_take_all_digits _ (normalizeDigits_all_digits x)
  simp only [ean13CheckDigit_eq _ h1 h2, string_mk_toList]

lemma makeEan13_some_shape (x y : String) (h : makeEan13 x = some y) :
    y.toList.length = 13 ∧ y.toList.all Char.isDigit = true := by
  by_cases hc : (normalizeDigits x).toList.length = 13
  · rw [makeEan13_pass_of_13 x hc] at h
    cases h
    exact ⟨hc, normalizeDigits_all_digits x⟩
  · rw [makeEan13_else x hc] at h
    cases h
    rw [string_append_mk, string_mk_toList]
    refine ⟨?_, ?_⟩
    · rw [List.length_append, padEndZeros_take_length]
      rfl
    · rw [List.all_append]
      refine Bool.and_eq_true_iff.mpr
        ⟨padEndZeros_take_all_digits _ (normalizeDigits_all_digits x), ?_⟩
      simp only [List.all_cons, List.all_nil, Bool.and_true]
      exact digitChar_isDigit _ (Nat.mod_lt _ (by norm_num))

lemma normalizeDigits_of_all (y : String) (h : y.toList.all Char.isDigit = true) :
    normalizeDigits y = y := by
  obtain ⟨yl⟩ := y
  unfold normalizeDigits
  rw [List.filter_eq_self.mpr (fun c hc => List.all_eq_true.mp h c hc)]
  rfl

/-- C3: `makeEan13` passes any already-valid 13-digit string through
unchanged, and is idempotent: whenever `makeEan13 x = some y`, also
`makeEan13 y = some y`. -/
theorem makeEan13_idempotent :
    (∀ x : String,
      (normalizeDigits x).toList.length = 13 →
      (∃ ds c, (normalizeDigits x).toList = ds ++ [c] ∧
        ean13CheckDigit (String.mk ds) = some (String.mk [c])) →
      makeEan13 x = some (normalizeDigits x)) ∧
    (∀ x y : String, makeEan13 x = some y → makeEan13 y = some y) := by
  constructor
  · intro x hlen _hvalid
    exact makeEan13_pass_of_13 x hlen
  · intro x y h
    obtain ⟨hlen, hdig⟩ := makeEan13_some_shape x y h
    have hn := normalizeDigits_of_all y hdig
    have hp := makeEan13_pass_of_13 y (by rw [hn]; exact hlen)
    rw [hn] at hp
    exact hp

/-- C3 witness: the valid EAN-13 `"4006381333931"` passes through, and the
output of `makeEan13 "12"` is a fixed point. -/
theorem makeEan13_idempotent_witness :
    makeEan13 "4006381333931" = some (normalizeDigits "4006381333931") ∧
    makeEan13 "1200000000003" = some "1200000000003" :=
  ⟨makeEan13_idempotent.1 "4006381333931" (by decide)
      ⟨("400638133393" : String).toList, '1', by decide, by decide⟩,
   makeEan13_idempotent.2 "12" "1200000000003" (by decide)⟩

/-- C4: when the digit-stripped input does not have exactly 13 digits,
`makeEan13` returns the first 12 digits (zero-padded on the right to length
12) followed by the check digit `ean13CheckDigit` computes for them. -/
theorem makeEan13_non13 (x : String)
    (h : (normalizeDigits x).toList.length ≠ 13) :
    ∃ cd : String,
      ean13CheckDigit (String.mk (padEndZeros ((normalizeDigits x).toList.take 12) 12))
        = some cd ∧
      makeEan13 x =
        some (String.mk (padEndZeros ((normalizeDigits x).toList.take 12) 12) ++ cd) := by
  have h1 : (String.mk (padEndZeros ((normalizeDigits x).toList.take 12) 12)).toList.length
      = 12 := by
    rw [string_mk_toList]; exact padEndZeros_take_length _
  have h2 : (String.mk (padEndZeros ((normalizeDigits x).toList.take 12) 12)).toList.all
      Char.isDigit = true := by
    rw [string_mk_toList]; exact padEndZeros_take_all_digits _ (normalizeDigits_all_digits x)
  exact ⟨_, ean13CheckDigit_eq _ h1 h2, makeEan13_else x h⟩

/-- C4 witness: the theorem applied to `"12"`, where two digits remain after
stripping. -/
theorem makeEan13_non13_witness :
    ∃ cd : String,
      ean13CheckDigit (String.mk (padEndZeros ((normalizeDigits "12").toList.take 12) 12))
        = some cd ∧
      makeEan13 "12" =
        some (String.mk (padEndZeros ((normalizeDigits "12").toList.take 12) 12) ++ cd) :=
  makeEan13_non13 "12" (by decide)

/-!
Part 2: the authentication/user-management backend (sources:
`backend/src/db.ts` — `getDb`, `ensureInitialAdmin`, `toPublicUser`;
`backend/src/auth.ts` — `requireAuth`, `requireAdmin`;
`backend/src/routes/auth.ts` and `backend/src/routes/users.ts`).

The SQLite `users` table is a list of rows plus the next `AUTOINCREMENT`
id.  `bcryptjs` is third-party code: its contract is modelled by a hash
value that records the hashed password and cost, with `compareSync`
succeeding exactly on the original password.  A JWT session cookie is
modelled by the `sub` claim of a token that passed signature verification
(`none` stands for a missing, malformed or expired token).
-/

/-- The `role` column: `CHECK (role IN ('admin', 'user'))`. -/
inductive Role
  | admin
  | user
deriving DecidableEq

/-- Model of `bcrypt.hashSync(password, cost)`. -/
structure BcryptHash where
  password : String
  cost : Nat
deriving DecidableEq

/-- Model of `bcrypt.hashSync`. -/
def bcryptHashSync (password : String) (cost : Nat) : BcryptHash :=
  ⟨password, cost⟩

/-- Model of `bcrypt.compareSync`: succeeds exactly when the candidate equals the
hashed password. -/
def bcryptCompareSync (candidate : String) (h : BcryptHash) : Bool :=
  candidate == h.password

/-- A row of the `users` table (`DbUser` in `backend/src/types.ts`). -/
structure DbUser where
  id : Nat
  login : String
  password_hash : BcryptHash
  role : Role
deriving DecidableEq

/-- Type `PublicUser = Omit<DbUser, "password_hash">`. -/
structure PublicUser where
  id : Nat
  login : String
  role : Role
deriving DecidableEq

/-- Source `toPublicUser`: drop the `password_hash` field. -/
def toPublicUser (u : DbUser) : PublicUser :=
  ⟨u.id, u.login, u.role⟩

/-- The `users` table plus the next `AUTOINCREMENT` id. -/
structure Db where
  users : List DbUser
  nextId : Nat
deriving DecidableEq

/-- Query `SELECT ... FROM users WHERE login = ?` (at most one row by the UNIQUE
constraint). -/
def findByLogin (db : Db) (l : String) : Option DbUser :=
  db.users.find? (fun u => u.login == l)

/-- Query `SELECT ... FROM users WHERE id = ?`. -/
def findById (db : Db) (i : Nat) : Option DbUser :=
  db.users.find? (fun u => u.id == i)

/-- Statement `INSERT INTO users (login, password_hash, role) VALUES (?, ?, ?)`:
fails with the driver's UNIQUE-constraint message when the login exists,
otherwise appends a fresh row and returns the new db and
`lastInsertRowid`. -/
def insertUser (db : Db) (l : String) (h : BcryptHash) (r : Role) :
    Except String (Db × Nat) :=
  if db.users.any (fun u => u.login == l) then
    .error "UNIQUE constraint failed: users.login"
  else
    .ok (⟨db.users ++ [⟨db.nextId, l, h, r⟩], db.nextId + 1⟩, db.nextId)

/-- Source `ensureInitialAdmin`: if no row with login `admin` exists, insert the
default `admin`/`123456` account (bcrypt cost 12, role `admin`). -/
def ensureInitialAdmin (db : Db) : Db :=
  match findByLogin db "admin" with
  | some _ => db
  | none =>
    ⟨db.users ++ [⟨db.nextId, "admin", bcryptHashSync "123456" 12, Role.admin⟩],
     db.nextId + 1⟩

/-- The JSON error codes the backend emits. -/
inductive ErrorCode
  | INVALID_INPUT
  | INVALID_CREDENTIALS
  | UNAUTHORIZED
  | FORBIDDEN
  | INVALID_ROLE
  | INVALID_ID
  | CANNOT_DELETE_SELF
  | LOGIN_ALREADY_EXISTS
  | INTERNAL_ERROR
deriving DecidableEq

/-- The JSON body of a backend response. -/
inductive ResBody
  | err (code : ErrorCode)
  | userRes (u : PublicUser)
  | usersRes (us : List PublicUser)
  | okRes (deleted : Option Nat)
  | health
deriving DecidableEq

/-- An HTTP response: status, JSON body, whether the auth cookie was set
(with the token's `sub`) and whether it was cleared. -/
structure Response where
  status : Nat
  body : ResBody
  cookieSet : Option Nat
  cookieCleared : Bool
deriving DecidableEq

/-- JavaScript falsiness of an optional string (`!login`): absent or
empty. -/
def isBlank : Option String → Bool
  | none => true
  | some s => s == ""

/-- Whether `needle` occurs at the start of `hay`. -/
def startsWithChars : List Char → List Char → Bool
  | [], _ => true
  | _ :: _, [] => false
  | p :: ps, c :: cs => p == c && startsWithChars ps cs

/-- Whether `needle` occurs somewhere in `hay`. -/
def hasSubstr (needle : List Char) : List Char → Bool
  | [] => startsWithChars needle []
  | c :: cs => startsWithChars needle (c :: cs) || hasSubstr needle cs

/-- JavaScript `String.prototype.includes`. -/
def stringIncludes (hay needle : String) : Bool :=
  hasSubstr needle.toList hay.toList

/-- Drop leading and trailing whitespace from a character list. -/
def trimChars (cs : List Char) : List Char :=
  ((cs.dropWhile Char.isWhitespace).reverse.dropWhile Char.isWhitespace).reverse

/-- JavaScript `String.prototype.trim`. -/
def jsTrim (s : String) : String :=
  String.mk (trimChars s.toList)

/-- Route `POST /api/auth/login` (`backend/src/routes/auth.ts`): trim the login,
reject blank input, look the login up, compare the bcrypt hash, and on
success set the auth cookie and return the sanitized user. -/
def loginHandler (loginB passwordB : Option String) (db : Db) : Response :=
  let login := loginB.map jsTrim
  if isBlank login || isBlank passwordB then
    ⟨400, .err .INVALID_INPUT, none, false⟩
  else
    match findByLogin db (login.getD "") with
    | none => ⟨401, .err .INVALID_CREDENTIALS, none, false⟩
    | some user =>
      if bcryptCompareSync (passwordB.getD "") user.password_hash then
        ⟨200, .userRes (toPublicUser user), some user.id, false⟩
      else
        ⟨401, .err .INVALID_CREDENTIALS, none, false⟩

/-- Source `requireAuth` (`backend/src/auth.ts`): verify the cookie token, re-read
the referenced user from the database, and attach the sanitized user; `none`
is the `401 UNAUTHORIZED` rejection. -/
def requireAuth (token : Option Nat) (db : Db) : Option PublicUser :=
  match token with
  | none => none
  | some sub =>
    match findById db sub with
    | none => none
    | some u => some (toPublicUser u)

/-- Source `requireAdmin` (`backend/src/auth.ts`): the attached user must have role
`admin`. -/
def requireAdmin (u : PublicUser) : Bool :=
  u.role == Role.admin

/-- Route `POST /api/users` (`backend/src/routes/users.ts`): validate the body,
hash the password with cost 12, insert, re-read the created row, and map a
UNIQUE-constraint failure (detected by substring-matching the driver's
message) to `409 LOGIN_ALREADY_EXISTS`. -/
def createUserHandler (loginB passwordB roleB : Option String) (db : Db) :
    Response × Db :=
  let login := loginB.map jsTrim
  let role := roleB.getD "user"
  if isBlank login || isBlank passwordB then
    (⟨400, .err .INVALID_INPUT, none, false⟩, db)
  else if role ≠ "admin" ∧ role ≠ "user" then
    (⟨400, .err .INVALID_ROLE, none, false⟩, db)
  else
    let passwordHash := bcryptHashSync (passwordB.getD "") 12
    let r : Role := if role == "admin" then .admin else .user
    match insertUser db (login.getD "") passwordHash r with
    | .ok (db2, newId) =>
      match findById db2 newId with
      | some created => (⟨201, .userRes (toPublicUser created), none, false⟩, db2)
      | none => (⟨500, .err .INTERNAL_ERROR, none, false⟩, db2)
    | .error msg =>
      if stringIncludes msg "UNIQUE" || stringIncludes msg.toLower "unique" then
        (⟨409, .err .LOGIN_ALREADY_EXISTS, none, false⟩, db)
      else
        (⟨500, .err .INTERNAL_ERROR, none, false⟩, db)

/-- Route `DELETE /api/users/:id` (`backend/src/routes/users.ts`).  `idParam` is
`Number(req.params.id)`, `none` when that is not finite. -/
def deleteUserHandler (callerId : Nat) (idParam : Option Int) (db : Db) :
    Response × Db :=
  match idParam with
  | none => (⟨400, .err .INVALID_ID, none, false⟩, db)
  | some i =>
    if i ≤ 0 then
      (⟨400, .err .INVALID_ID, none, false⟩, db)
    else if (callerId : Int) == i then
      (⟨400, .err .CANNOT_DELETE_SELF, none, false⟩, db)
    else
      let remaining := db.users.filter (fun u => !((u.id : Int) == i))
      (⟨200, .okRes (some (db.users.length - remaining.length)), none, false⟩,
       ⟨remaining, db.nextId⟩)

/-- One backend API request; where a route reads the auth cookie, `token` is
the `sub` claim of a token that passed JWT verification. -/
inductive ApiRequest
  | login (loginB passwordB : Option String)
  | logout
  | me (token : Option Nat)
  | listUsers (token : Option Nat)
  | createUser (token : Option Nat) (loginB passwordB roleB : Option String)
  | deleteUser (token : Option Nat) (idParam : Option Int)
  | health

/-- Clause `ORDER BY id ASC` on the `users` table. -/
def sortById (us : List DbUser) : List DbUser :=
  us.mergeSort (fun a b => decide (a.id ≤ b.id))

/-- The backend routing table (`server.ts` plus the two routers), with the
`requireAuth` / `requireAdmin` guard chain exactly as each route declares
it. -/
def handleRequest : ApiRequest → Db → Response × Db
  | .login lb pb, db => (loginHandler lb pb db, db)
  | .logout, db => (⟨200, .okRes none, none, true⟩, db)
  | .me tok, db =>
    match requireAuth tok db with
    | none => (⟨401, .err .UNAUTHORIZED, none, false⟩, db)
    | some u => (⟨200, .userRes u, none, false⟩, db)
  | .listUsers tok, db =>
    match requireAuth tok db with
    | none => (⟨401, .err .UNAUTHORIZED, none, false⟩, db)
    | some u =>
      if requireAdmin u then
        (⟨200, .usersRes ((sortById db.users).map toPublicUser), none, false⟩, db)
      else (⟨403, .err .FORBIDDEN, none, false⟩, db)
  | .createUser tok lb pb rb, db =>
    match requireAuth tok db with
    | none => (⟨401, .err .UNAUTHORIZED, none, false⟩, db)
    | some u =>
      if requireAdmin u then createUserHandler lb pb rb db
      else (⟨403, .err .FORBIDDEN, none, false⟩, db)
  | .deleteUser tok idP, db =>
    match requireAuth tok db with
    | none => (⟨401, .err .UNAUTHORIZED, none, false⟩, db)
    | some u =>
      if requireAdmin u then deleteUserHandler u.id idP db
      else (⟨403, .err .FORBIDDEN, none, false⟩, db)
  | .health, db => (⟨200, .health, none, false⟩, db)

lemma requireAuth_attaches (tok : Option Nat) (db : Db) (u : PublicUser)
    (h : requireAuth tok db = some u) : ∃ v ∈ db.users, toPublicUser v = u := by
  cases tok with
  | none => simp [requireAuth] at h
  | some sub =>
    cases hf : findById db sub with
    | none => simp [requireAuth, hf] at h
    | some v =>
      simp only [requireAuth, hf, Option.some.injEq] at h
      exact ⟨v, List.mem_of_find?_eq_some hf, h⟩

/-- The row `ensureInitialAdmin` inserts on an admin-free database. -/
def initialAdminRow (db : Db) : DbUser :=
  ⟨db.nextId, "admin", bcryptHashSync "123456" 12, Role.admin⟩

lemma ensureInitialAdmin_found (db : Db)
    (h : (findByLogin db "admin").isSome = true) : ensureInitialAdmin db = db := by
  unfold ensureInitialAdmin
  cases hf : findByLogin db "admin" with
  | none => rw [hf] at h; simp at h
  | some v => rfl

lemma ensureInitialAdmin_missing (db : Db) (h : findByLogin db "admin" = none) :
    (ensureInitialAdmin db).users = db.users ++ [initialAdminRow db] := by
  unfold ensureInitialAdmin
  rw [h]
  rfl

/-- C5: on a database with no `admin` login, `ensureInitialAdmin` appends
exactly one row — login `admin`, role `admin`, bcrypt(cost 12) hash of
`123456` — leaving exactly one `admin` row; and on any database that
already has an `admin` login (in particular after a first run) it is the
identity. -/
theorem ensureInitialAdmin_spec :
    (∀ db : Db, findByLogin db "admin" = none →
      (ensureInitialAdmin db).users
        = db.users ++ [⟨db.nextId, "admin", bcryptHashSync "123456" 12, Role.admin⟩] ∧
      ((ensureInitialAdmin db).users.filter (fun u => u.login == "admin")).length = 1 ∧
      ensureInitialAdmin (ensureInitialAdmin db) = ensureInitialAdmin db) ∧
    (∀ db : Db, (findByLogin db "admin").isSome = true → ensureInitialAdmin db = db) := by
  constructor
  · intro db h
    have hm := ensureInitialAdmin_missing db h
    have hnone : ∀ u ∈ db.users, ¬(u.login == "admin") = true := by
      intro u hu
      exact List.find?_eq_none.mp h u hu
    refine ⟨hm, ?_, ?_⟩
    · rw [hm, List.filter_append]
      rw [List.filter_eq_nil_iff.mpr hnone]
      simp [initialAdminRow]
    · apply ensureInitialAdmin_found
      unfold findByLogin
      rw [List.find?_isSome]
      exact ⟨initialAdminRow db, by rw [hm]; simp, by simp [initialAdminRow]⟩
  · exact ensureInitialAdmin_found

/-- C5 witness: the theorem applied to the empty database (next id 1) and to
its own output. -/
theorem ensureInitialAdmin_spec_witness :
    ((ensureInitialAdmin ⟨[], 1⟩).users
      = [] ++ [⟨(1 : Nat), "admin", bcryptHashSync "123456" 12, Role.admin⟩] ∧
    ((ensureInitialAdmin ⟨[], 1⟩).users.filter (fun u => u.login == "admin")).length = 1 ∧
    ensureInitialAdmin (ensureInitialAdmin ⟨[], 1⟩) = ensureInitialAdmin ⟨[], 1⟩) ∧
    ensureInitialAdmin (ensureInitialAdmin ⟨[], 1⟩) = ensureInitialAdmin ⟨[], 1⟩ :=
  ⟨ensureInitialAdmin_spec.1 ⟨[], 1⟩ rfl,
   ensureInitialAdmin_spec.2 (ensureInitialAdmin ⟨[], 1⟩) (by decide)⟩

/-- C6: an authenticated admin (id re-read from the database, hence
positive) who sends `DELETE /api/users/:id` with their own id gets
`400 CANNOT_DELETE_SELF`, the table is unchanged, and the caller's row is
still present. -/
theorem deleteSelf_rejected (db : Db) (sub : Nat) (u : PublicUser)
    (hauth : requireAuth (some sub) db = some u)
    (hadmin : requireAdmin u = true)
    (hid : 0 < u.id) :
    handleRequest (.deleteUser (some sub) (some (u.id : Int))) db
      = (⟨400, .err .CANNOT_DELETE_SELF, none, false⟩, db) ∧
    ∃ v ∈ db.users, toPublicUser v = u := by
  refine ⟨?_, requireAuth_attaches _ _ _ hauth⟩
  have h1 : ¬((u.id : Int) ≤ 0) := by omega
  simp [handleRequest, hauth, hadmin, deleteUserHandler, h1]

/-- C6 witness: the theorem applied to a one-admin database with the caller
deleting id 1 = their own id. -/
theorem deleteSelf_rejected_witness :
    handleRequest
        (.deleteUser (some 1) (some (((⟨1, "admin", Role.admin⟩ : PublicUser)).id : Int)))
        ⟨[⟨1, "admin", bcryptHashSync "123456" 12, Role.admin⟩], 2⟩
      = (⟨400, .err .CANNOT_DELETE_SELF, none, false⟩,
         ⟨[⟨1, "admin", bcryptHashSync "123456" 12, Role.admin⟩], 2⟩) ∧
    ∃ v ∈ (⟨[⟨1, "admin", bcryptHashSync "123456" 12, Role.admin⟩], 2⟩ : Db).users,
      toPublicUser v = ⟨1, "admin", Role.admin⟩ :=
  deleteSelf_rejected ⟨[⟨1, "admin", bcryptHashSync "123456" 12, Role.admin⟩], 2⟩ 1
    ⟨1, "admin", Role.admin⟩ (by decide) (by decide) (by decide)

lemma insertUser_dup (db : Db) (l : String) (h : BcryptHash) (r : Role)
    (hany : db.users.any (fun u => u.login == l) = true) :
    insertUser db l h r = .error "UNIQUE constraint failed: users.login" := by
  unfold insertUser
  rw [if_pos hany]

lemma createUserHandler_dup (db : Db) (l0 p : String) (roleB : Option String)
    (hl : jsTrim l0 ≠ "") (hp : p ≠ "")
    (hrole : roleB.getD "user" = "admin" ∨ roleB.getD "user" = "user")
    (hany : db.users.any (fun u => u.login == jsTrim l0) = true) :
    createUserHandler (some l0) (some p) roleB db
      = (⟨409, .err .LOGIN_ALREADY_EXISTS, none, false⟩, db) := by
  have hU : stringIncludes "UNIQUE constraint failed: users.login" "UNIQUE" = true := by
    decide
  simp only [createUserHandler, Option.map_some', Option.getD_some]
  rw [if_neg (by simp [isBlank, hl, hp])]
  rw [if_neg (by rcases hrole with h | h <;> simp [h])]
  rw [insertUser_dup db _ _ _ hany]
  simp [hU]

/-- C7: an authenticated admin creating a user with a non-blank login that
already exists (one row, by the UNIQUE constraint), a non-blank password and
a valid role gets `409 LOGIN_ALREADY_EXISTS`, the table is unchanged, and
still has exactly one row with that login. -/
theorem createDuplicate_rejected (db : Db) (sub : Nat) (u : PublicUser)
    (l0 p : String) (roleB : Option String)
    (hauth : requireAuth (some sub) db = some u)
    (hadmin : requireAdmin u = true)
    (hl : jsTrim l0 ≠ "")
    (hp : p ≠ "")
    (hrole : roleB.getD "user" = "admin" ∨ roleB.getD "user" = "user")
    (hexist : (db.users.filter (fun v => v.login == jsTrim l0)).length = 1) :
    handleRequest (.createUser (some sub) (some l0) (some p) roleB) db
      = (⟨409, .err .LOGIN_ALREADY_EXISTS, none, false⟩, db) ∧
    ((handleRequest (.createUser (some sub) (some l0) (some p) roleB) db).2.users.filter
      (fun v => v.login == jsTrim l0)).length = 1 := by
  have hany : db.users.any (fun v => v.login == jsTrim l0) = true := by
    have hpos : 0 < (db.users.filter (fun v => v.login == jsTrim l0)).length := by omega
    obtain ⟨v, hv⟩ := List.exists_mem_of_length_pos hpos
    obtain ⟨hvm, hvp⟩ := List.mem_filter.mp hv
    exact List.any_eq_true.mpr ⟨v, hvm, hvp⟩
  have hmain : handleRequest (.createUser (some sub) (some l0) (some p) roleB) db
      = (⟨409, .err .LOGIN_ALREADY_EXISTS, none, false⟩, db) := by
    simp only [handleRequest, hauth, hadmin, if_true]
    exact createUserHandler_dup db l0 p roleB hl hp hrole hany
  exact ⟨hmain, by rw [hmain]; exact hexist⟩

/-- C7 witness: the theorem applied to a one-admin database with a duplicate
`admin` login. -/
theorem createDuplicate_rejected_witness :
    handleRequest (.createUser (some 1) (some "admin") (some "pw") none)
        ⟨[⟨1, "admin", bcryptHashSync "123456" 12, Role.admin⟩], 2⟩
      = (⟨409, .err .LOGIN_ALREADY_EXISTS, none, false⟩,
         ⟨[⟨1, "admin", bcryptHashSync "123456" 12, Role.admin⟩], 2⟩) ∧
    ((handleRequest (.createUser (some 1) (some "admin") (some "pw") none)
        ⟨[⟨1, "admin", bcryptHashSync "123456" 12, Role.admin⟩], 2⟩).2.users.filter
      (fun v => v.login == jsTrim "admin")).length = 1 :=
  createDuplicate_rejected ⟨[⟨1, "admin", bcryptHashSync "123456" 12, Role.admin⟩], 2⟩ 1
    ⟨1, "admin", Role.admin⟩ "admin" "pw" none (by decide) (by decide) (by decide)
    (by decide) (Or.inr rfl) (by decide)

/-- C8: `POST /api/auth/login` returns `400 INVALID_INPUT` on a blank login
or password; `401 INVALID_CREDENTIALS` both when no row has the trimmed
login and when the row exists but the password does not match its bcrypt
hash (the same status and code in both cases); and on a match it sets the
session cookie and returns the sanitized user. -/
theorem loginHandler_cases (lb pb : Option String) (db : Db) :
    (isBlank (lb.map jsTrim) = true ∨ isBlank pb = true →
      loginHandler lb pb db = ⟨400, .err .INVALID_INPUT, none, false⟩) ∧
    (∀ l p : String, lb = some l → pb = some p → jsTrim l ≠ "" → p ≠ "" →
      (findByLogin db (jsTrim l) = none →
        loginHandler lb pb db = ⟨401, .err .INVALID_CREDENTIALS, none, false⟩) ∧
      (∀ u : DbUser, findByLogin db (jsTrim l) = some u →
        (bcryptCompareSync p u.password_hash = false →
          loginHandler lb pb db = ⟨401, .err .INVALID_CREDENTIALS, none, false⟩) ∧
        (bcryptCompareSync p u.password_hash = true →
          loginHandler lb pb db
            = ⟨200, .userRes (toPublicUser u), some u.id, false⟩))) := by
  constructor
  · intro hblank
    unfold loginHandler
    rw [if_pos (Bool.or_eq_true_iff.mpr hblank)]
  · rintro l p rfl rfl hl hp
    have hblank : ¬((isBlank ((some l).map jsTrim) || isBlank (some p)) = true) := by
      simp [isBlank, hl, hp]
    refine ⟨?_, ?_⟩
    · intro hfind
      unfold loginHandler
      rw [if_neg hblank]
      simp only [Option.map_some', Option.getD_some, hfind]
    · intro u hfind
      constructor
      · intro hcmp
        unfold loginHandler
        rw [if_neg hblank]
        simp only [Option.map_some', Option.getD_some, hfind, hcmp, Bool.false_eq_true,
          if_false]
      · intro hcmp
        unfold loginHandler
        rw [if_neg hblank]
        simp only [Option.map_some', Option.getD_some, hfind, hcmp, if_true]

/-- C8 witness: against a one-admin database, the theorem yields the
concrete `400`, the two indistinguishable `401`s, and the `200` with the
cookie set. -/
theorem loginHandler_cases_witness :
    loginHandler none (some "x") ⟨[⟨1, "admin", bcryptHashSync "123456" 12, Role.admin⟩], 2⟩
      = ⟨400, .err .INVALID_INPUT, none, false⟩ ∧
    loginHandler (some "nobody") (some "x")
        ⟨[⟨1, "admin", bcryptHashSync "123456" 12, Role.admin⟩], 2⟩
      = ⟨401, .err .INVALID_CREDENTIALS, none, false⟩ ∧
    loginHandler (some "admin") (some "wrong")
        ⟨[⟨1, "admin", bcryptHashSync "123456" 12, Role.admin⟩], 2⟩
      = ⟨401, .err .INVALID_CREDENTIALS, none, false⟩ ∧
    loginHandler (some "admin") (some "123456")
        ⟨[⟨1, "admin", bcryptHashSync "123456" 12, Role.admin⟩], 2⟩
      = ⟨200, .userRes (toPublicUser ⟨1, "admin", bcryptHashSync "123456" 12, Role.admin⟩),
          some 1, false⟩ :=
  ⟨(loginHandler_cases none (some "x") _).1 (Or.inl rfl),
   ((loginHandler_cases (some "nobody") (some "x") _).2 "nobody" "x" rfl rfl
      (by decide) (by decide)).1 (by decide),
   (((loginHandler_cases (some "admin") (some "wrong") _).2 "admin" "wrong" rfl rfl
      (by decide) (by decide)).2 ⟨1, "admin", bcryptHashSync "123456" 12, Role.admin⟩
      (by decide)).1 (by decide),
   (((loginHandler_cases (some "admin") (some "123456") _).2 "admin" "123456" rfl rfl
      (by decide) (by decide)).2 ⟨1, "admin", bcryptHashSync "123456" 12, Role.admin⟩
      (by decide)).2 (by decide)⟩

/-- At least one row with role `admin` exists. -/
def hasAdmin (db : Db) : Bool :=
  db.users.any (fun u => u.role == Role.admin)

lemma hasAdmin_of_mem (db : Db) (v : DbUser) (hv : v ∈ db.users)
    (hr : v.role = Role.admin) : hasAdmin db = true :=
  List.any_eq_true.mpr ⟨v, hv, by simp [hr]⟩

lemma hasAdmin_users_append (us extra : List DbUser) (n : Nat)
    (h : us.any (fun u => u.role == Role.admin) = true) :
    hasAdmin ⟨us ++ extra, n⟩ = true := by
  unfold hasAdmin
  simp only [List.any_append, h, Bool.true_or]

lemma insertUser_ok_users (db : Db) (l : String) (h : BcryptHash) (r : Role)
    (db2 : Db) (newId : Nat) (hok : insertUser db l h r = .ok (db2, newId)) :
    db2.users = db.users ++ [⟨db.nextId, l, h, r⟩] := by
  unfold insertUser at hok
  split at hok
  · cases hok
  · cases hok
    rfl

lemma createUserHandler_preserves (lb pb rb : Option String) (db : Db)
    (h : hasAdmin db = true) :
    hasAdmin (createUserHandler lb pb rb db).2 = true := by
  simp only [createUserHandler]
  split
  · exact h
  split
  · exact h
  split
  case _ db2 newId hok =>
    have hu := insertUser_ok_users _ _ _ _ _ _ hok
    split
    all_goals
      show hasAdmin db2 = true
      obtain ⟨us2, n2⟩ := db2
      simp only at hu
      subst hu
      exact hasAdmin_users_append _ _ _ h
  case _ msg =>
    split
    · exact h
    · exact h

lemma deleteUserHandler_preserves (callerId : Nat) (idP : Option Int) (db : Db)
    (hc : ∃ v ∈ db.users, v.id = callerId ∧ v.role = Role.admin) :
    hasAdmin (deleteUserHandler callerId idP db).2 = true := by
  obtain ⟨v, hvm, hvid, hvr⟩ := hc
  have hdb : hasAdmin db = true := hasAdmin_of_mem db v hvm hvr
  cases idP with
  | none => exact hdb
  | some i =>
    simp only [deleteUserHandler]
    split
    · exact hdb
    split
    · exact hdb
    next hne =>
      apply hasAdmin_of_mem _ v _ hvr
      refine List.mem_filter.mpr ⟨hvm, ?_⟩
      simp only [Bool.not_eq_true] at hne
      simp only [Bool.not_eq_true', beq_eq_false_iff_ne] at hne ⊢
      rw [hvid]
      exact hne

/-- C9: every backend API operation preserves the invariant that at least
one `admin` user exists (a delete is only reachable by a caller whose own
row is an admin row and the self-delete guard keeps that row), and so does
`ensureInitialAdmin`. -/
theorem handleRequest_preserves_admin (req : ApiRequest) (db : Db)
    (h : hasAdmin db = true) :
    hasAdmin (handleRequest req db).2 = true ∧
    hasAdmin (ensureInitialAdmin db) = true := by
  have hens : hasAdmin (ensureInitialAdmin db) = true := by
    unfold ensureInitialAdmin
    cases hf : findByLogin db "admin" with
    | some v => exact h
    | none => exact hasAdmin_users_append _ _ _ h
  refine ⟨?_, hens⟩
  cases req with
  | login lb pb => exact h
  | logout => exact h
  | health => exact h
  | me tok =>
    simp only [handleRequest]
    split
    · exact h
    · exact h
  | listUsers tok =>
    simp only [handleRequest]
    split
    · exact h
    · split
      · exact h
      · exact h
  | createUser tok lb pb rb =>
    simp only [handleRequest]
    split
    · exact h
    · split
      · exact createUserHandler_preserves lb pb rb db h
      · exact h
  | deleteUser tok idP =>
    simp only [handleRequest]
    split
    · exact h
    next u hr =>
      split
      next hadm =>
        obtain ⟨v, hvm, hvp⟩ := requireAuth_attaches tok db u hr
        subst hvp
        apply deleteUserHandler_preserves
        refine ⟨v, hvm, rfl, ?_⟩
        simpa [requireAdmin, toPublicUser] using hadm
      next _ => exact h

/-- C9 witness: the theorem applied to a two-user database (admin id 1,
user id 2) and a delete of id 2 by the admin. -/
theorem handleRequest_preserves_admin_witness :
    hasAdmin (handleRequest (.deleteUser (some 1) (some 2))
      ⟨[⟨1, "admin", bcryptHashSync "123456" 12, Role.admin⟩,
        ⟨2, "bob", bcryptHashSync "pw" 12, Role.user⟩], 3⟩).2 = true ∧
    hasAdmin (ensureInitialAdmin
      ⟨[⟨1, "admin", bcryptHashSync "123456" 12, Role.admin⟩,
        ⟨2, "bob", bcryptHashSync "pw" 12, Role.user⟩], 3⟩) = true :=
  handleRequest_preserves_admin (.deleteUser (some 1) (some 2))
    ⟨[⟨1, "admin", bcryptHashSync "123456" 12, Role.admin⟩,
      ⟨2, "bob", bcryptHashSync "pw" 12, Role.user⟩], 3⟩ (by decide)

/-- The sanitized user objects carried by a response body. -/
def responseUsers : ResBody → List PublicUser
  | .userRes u => [u]
  | .usersRes us => us
  | _ => []

lemma loginHandler_users (lb pb : Option String) (db : Db) (pu : PublicUser) :
    pu ∈ responseUsers (loginHandler lb pb db).body →
    ∃ v ∈ db.users, toPublicUser v = pu := by
  simp only [loginHandler]
  split
  · intro h; simp [responseUsers] at h
  · split
    · intro h; simp [responseUsers] at h
    next user hfind =>
      split
      · intro h
        simp only [responseUsers, List.mem_singleton] at h
        exact ⟨user, List.mem_of_find?_eq_some hfind, h.symm⟩
      · intro h; simp [responseUsers] at h

lemma createUserHandler_users (lb pb rb : Option String) (db : Db) (pu : PublicUser) :
    pu ∈ responseUsers (createUserHandler lb pb rb db).1.body →
    ∃ v ∈ (createUserHandler lb pb rb db).2.users, toPublicUser v = pu := by
  simp only [createUserHandler]
  split
  · intro h; simp [responseUsers] at h
  split
  · intro h; simp [responseUsers] at h
  split
  case _ db2 newId hok =>
    split
    next created hfind =>
      intro h
      simp only [responseUsers, List.mem_singleton] at h
      exact ⟨created, List.mem_of_find?_eq_some hfind, h.symm⟩
    next => intro h; simp [responseUsers] at h
  case _ msg =>
    split
    · intro h; simp [responseUsers] at h
    · intro h; simp [responseUsers] at h

lemma deleteUserHandler_no_users (callerId : Nat) (idP : Option Int) (db : Db) :
    responseUsers (deleteUserHandler callerId idP db).1.body = [] := by
  cases idP with
  | none => rfl
  | some i =>
    simp only [deleteUserHandler]
    split
    · rfl
    split
    · rfl
    · rfl

/-- C10: `requireAuth` only ever attaches `toPublicUser` of a database row
to the request, and every user object in any endpoint's response body is
`toPublicUser` of a row of the resulting database — no response carries a
password hash. -/
theorem responses_sanitized :
    (∀ (tok : Option Nat) (db : Db) (u : PublicUser),
      requireAuth tok db = some u → ∃ v ∈ db.users, toPublicUser v = u) ∧
    (∀ (req : ApiRequest) (db : Db) (pu : PublicUser),
      pu ∈ responseUsers (handleRequest req db).1.body →
      ∃ v ∈ (handleRequest req db).2.users, toPublicUser v = pu) := by
  refine ⟨requireAuth_attaches, ?_⟩
  intro req db pu
  cases req with
  | login lb pb => exact loginHandler_users lb pb db pu
  | logout => intro h; simp [handleRequest, responseUsers] at h
  | health => intro h; simp [handleRequest, responseUsers] at h
  | me tok =>
    simp only [handleRequest]
    split
    · intro h; simp [responseUsers] at h
    next u hr =>
      intro h
      simp only [responseUsers, List.mem_singleton] at h
      subst h
      exact requireAuth_attaches tok db pu hr
  | listUsers tok =>
    simp only [handleRequest]
    split
    · intro h; simp [responseUsers] at h
    · split
      · intro h
        simp only [responseUsers] at h
        obtain ⟨v, hv, hveq⟩ := List.mem_map.mp h
        refine ⟨v, ?_, hveq⟩
        unfold sortById at hv
        exact (List.mergeSort_perm _ _).mem_iff.mp hv
      · intro h; simp [responseUsers] at h
  | createUser tok lb pb rb =>
    simp only [handleRequest]
    split
    · intro h; simp [responseUsers] at h
    · split
      · exact createUserHandler_users lb pb rb db pu
      · intro h; simp [responseUsers] at h
  | deleteUser tok idP =>
    simp only [handleRequest]
    split
    · intro h; simp [responseUsers] at h
    next u _ =>
      split
      · intro h
        rw [deleteUserHandler_no_users] at h
        simp at h
      · intro h; simp [responseUsers] at h

/-- C10 witness: `GET /api/auth/me` against a one-admin database returns a
user that is `toPublicUser` of a database row. -/
theorem responses_sanitized_witness :
    ∃ v ∈ (handleRequest (.me (some 1))
        ⟨[⟨1, "admin", bcryptHashSync "123456" 12, Role.admin⟩], 2⟩).2.users,
      toPublicUser v = ⟨1, "admin", Role.admin⟩ :=
  responses_sanitized.2 (.me (some 1))
    ⟨[⟨1, "admin", bcryptHashSync "123456" 12, Role.admin⟩], 2⟩
    ⟨1, "admin", Role.admin⟩ (by decide)

end LabelPilot
